import Mathlib

/-!
Verification of the lovshot capture-to-export pipeline.

This development shallowly embeds the Rust sources of the lovshot screen
recorder (src-tauri/src/commands/export.rs, src-tauri/src/commands/scroll.rs)
into Lean 4 and proves/refutes the specification claims about scroll-delta
detection, scroll stitching, export temporal resampling, ping-pong loop
expansion, GIF frame delay, the size estimator and the scroll/export state
effects.

Machine floats (f32/f64) in the source are modelled as exact rationals with
round-half-away-from-zero rounding (all rounded quantities in scope are
nonnegative, where this agrees with round-half-up); i64 arithmetic is
modelled as exact integers with `i64MAX` standing for `i64::MAX`, which the
source only uses as an unreachable sentinel score.
-/

/-- One RGBA pixel, 8 bits per channel (values are `Nat`s; the source stores
`u8`, all arithmetic on channels is done after widening so no wraparound
occurs). -/
structure Pix where
  r : Nat
  g : Nat
  b : Nat
  a : Nat
deriving DecidableEq, Repr

/-- An RGBA image (`image::RgbaImage`): a width × height grid of pixels.
`pix x y` is the pixel at column `x`, row `y`; values outside the
width/height bounds are irrelevant to every function modelled here (the
source never reads out of bounds). -/
structure Img where
  width : Nat
  height : Nat
  pix : Nat → Nat → Pix

/-- The zero (transparent black) pixel, the fill value of `RgbaImage::new`. -/
def zeroPix : Pix := ⟨0, 0, 0, 0⟩

/-- Sentinel for `i64::MAX` used by `detect_scroll_delta` as the initial
best score and by `compare_strips` for out-of-bounds strips. -/
def i64MAX : Int := 2 ^ 63 - 1

/-- Columns sampled by `compare_strips`: `(0..width).step_by(4)`. -/
def sampledCols (width : Nat) : List Nat :=
  (List.range ((width + 3) / 4)).map (fun i => 4 * i)

/-- Model of `compare_strips` (scroll.rs:212-233): sum of absolute R,G,B
channel differences between the strip of `prev` starting at row `prev_y`
and the strip of `curr` starting at row `curr_y`, both of the given height,
sampling every 4th column; `i64::MAX` if either strip is out of bounds. -/
def compare_strips (prev curr : Img) (prev_y curr_y width height : Nat) : Int :=
  if prev.height < prev_y + height ∨ curr.height < curr_y + height then
    i64MAX
  else
    (List.range height).foldl (fun acc y =>
      (sampledCols width).foldl (fun acc2 x =>
        acc2 + |((prev.pix x (prev_y + y)).r : Int) - ((curr.pix x (curr_y + y)).r : Int)|
             + |((prev.pix x (prev_y + y)).g : Int) - ((curr.pix x (curr_y + y)).g : Int)|
             + |((prev.pix x (prev_y + y)).b : Int) - ((curr.pix x (curr_y + y)).b : Int)|)
        acc) 0

/-- Strip height constant of `detect_scroll_delta` (scroll.rs:180). -/
def stripHeight : Nat := 20

/-- Candidate scroll offsets of `detect_scroll_delta`:
`(10..search_range).step_by(5)` where
`search_range = min(height / 2, 200)` (scroll.rs:168,182). -/
def scrollCandidates (height : Nat) : List Nat :=
  let searchRange := min (height / 2) 200
  (List.range ((searchRange - 10 + 4) / 5)).map (fun i => 10 + 5 * i)

/-- The running-minimum loop of `detect_scroll_delta`: starting from
`(best_match, best_score) = (0, i64::MAX)`, scan the candidates in order and
replace the pair whenever the candidate's score is strictly smaller. -/
def bestPair (score : Nat → Int) (cands : List Nat) : Nat × Int :=
  cands.foldl (fun b o => if score o < b.2 then (o, score o) else b) (0, i64MAX)

/-- Model of `detect_scroll_delta` (scroll.rs:159-208): returns the detected
scroll amount, positive for scroll down, negative for scroll up, 0 when the
frames differ in size or no candidate scores below the threshold. -/
def detect_scroll_delta (prev curr : Img) : Int :=
  if prev.width ≠ curr.width ∨ prev.height ≠ curr.height then 0
  else
    let w := prev.width
    let cands := scrollCandidates prev.height
    let down := bestPair (fun o => compare_strips prev curr o 0 w stripHeight) cands
    let up := bestPair (fun o => compare_strips prev curr 0 o w stripHeight) cands
    let threshold : Int := (w : Int) * (stripHeight : Int) * 50
    if down.2 < threshold ∧ down.2 ≤ up.2 then (down.1 : Int)
    else if up.2 < threshold then -(up.1 : Int)
    else 0

/-- Model of `stitch_scroll_image` (scroll.rs:305-377): extend the running
composite `base` with the non-overlapping part of `new_frame` according to
the scroll amount `d` (positive: append at the bottom from the new frame's
bottom edge; non-positive: prepend at the top from the new frame's top
edge; `|d| ≥ new_frame.height` means no overlap, full concatenation).
Fails when the widths differ. Rows not written by either copy keep the
zero fill of `RgbaImage::new`. -/
def stitch_scroll_image (base new_frame : Img) (d : Int) :
    Except String Img :=
  if base.width ≠ new_frame.width then .error "Frame width mismatch"
  else
    let absd := d.natAbs
    if 0 < d then
      if new_frame.height ≤ absd then
        .ok ⟨base.width, base.height + new_frame.height, fun x y =>
          if y < base.height then base.pix x y
          else if y < base.height + new_frame.height then
            new_frame.pix x (y - base.height)
          else zeroPix⟩
      else
        let pixelsToAdd := min absd new_frame.height
        .ok ⟨base.width, base.height + pixelsToAdd, fun x y =>
          if y < base.height then base.pix x y
          else if y < base.height + pixelsToAdd then
            new_frame.pix x (new_frame.height - pixelsToAdd + (y - base.height))
          else zeroPix⟩
    else
      if new_frame.height ≤ absd then
        .ok ⟨base.width, new_frame.height + base.height, fun x y =>
          if y < new_frame.height then new_frame.pix x y
          else if y < new_frame.height + base.height then
            base.pix x (y - new_frame.height)
          else zeroPix⟩
      else
        let pixelsToAdd := min absd new_frame.height
        .ok ⟨base.width, base.height + pixelsToAdd, fun x y =>
          if y < pixelsToAdd then new_frame.pix x y
          else if y < pixelsToAdd + base.height then base.pix x (y - pixelsToAdd)
          else zeroPix⟩

/-- Modelled from the spec: the ScrollSession slice of the shared
application state (`crate::state::AppState`, whose defining module is not
present under src/; fields and their uses are exactly those read and
written by commands/scroll.rs: `scroll_capturing`, `scroll_frames`,
`scroll_offsets`, `scroll_stitched`, matching spec §3 ScrollSession
`{capturing, history, offsets, composite}`). -/
structure ScrollState where
  scroll_capturing : Bool
  scroll_frames : List Img
  scroll_offsets : List Int
  scroll_stitched : Option Img

/-- The scroll fields of the freshly created application state: not
capturing, empty history, no composite. -/
def initScrollState : ScrollState := ⟨false, [], [], none⟩

/-- Model of the state mutation of `start_scroll_capture` (scroll.rs:14-76)
on a successful initial capture of `frame`: clear all previous scroll
state, mark capturing, store the frame with cumulative offset 0 and make it
the composite. (The capture itself and the preview encoding are external;
on their failure the guard is already dropped after the clear, which is the
same state as `startScroll` minus the pushed frame — error paths are not
needed by any claim.) -/
def startScroll (frame : Img) : ScrollState :=
  ⟨true, [frame], [(0 : Int)], some frame⟩

/-- Model of the state effect of `capture_scroll_frame_auto`
(scroll.rs:81-155) given the freshly captured `new_frame`: error when not
capturing or no previous frame; no state change when the detected delta has
absolute value below 10; otherwise stitch the composite, append the frame
and its cumulative offset. Error results leave the state unchanged (all
mutations in the source happen after the fallible calls). -/
def captureScrollFrameAuto (s : ScrollState) (new_frame : Img) :
    Except String ScrollState :=
  if s.scroll_capturing = false then .error "Not in scroll capture mode"
  else
    match s.scroll_frames.getLast? with
    | none => .error "No previous frame"
    | some last_frame =>
      let scroll_delta := detect_scroll_delta last_frame new_frame
      if scroll_delta.natAbs < 10 then .ok s
      else
        match s.scroll_stitched with
        | none => .error "No stitched image"
        | some base =>
          match stitch_scroll_image base new_frame scroll_delta with
          | .error e => .error e
          | .ok stitched =>
            let last_offset := s.scroll_offsets.getLast?.getD 0
            .ok { s with
                  scroll_frames := s.scroll_frames ++ [new_frame],
                  scroll_offsets := s.scroll_offsets ++ [last_offset + scroll_delta],
                  scroll_stitched := some stitched }

/-- Model of the state mutation of `finish_scroll_capture`
(scroll.rs:270-290): error (state unchanged) when not capturing or when no
composite exists; otherwise take the composite and clear every scroll
field. -/
def finishScrollCapture (s : ScrollState) : ScrollState :=
  if s.scroll_capturing = false then s
  else
    match s.scroll_stitched with
    | none => s
    | some _ => ⟨false, [], [], none⟩

/-- Model of `cancel_scroll_capture` (scroll.rs:294-300): clear every
scroll field unconditionally. -/
def cancelScrollCapture (_s : ScrollState) : ScrollState :=
  ⟨false, [], [], none⟩

/-- The default image used only as the (never reached) `List.getD` fallback
in the sampling model. -/
def defaultImg : Img := ⟨0, 0, fun _ _ => zeroPix⟩

/-- Rounding of a nonnegative rational as Rust's `f32::round`/`f64::round`
(round half away from zero; all values rounded in the source are
nonnegative, so this is round-half-up) followed by `as usize` truncation. -/
def roundNN (q : Rat) : Nat := ⌊q + 1 / 2⌋.toNat

/-- Rust `val.clamp(lo, hi)` on rationals. -/
def ratClamp (val lo hi : Rat) : Rat := min (max val lo) hi

/-- GIF loop modes (types.rs `GifLoopMode`, mirrored in lib.rs:79-85). -/
inductive GifLoopMode where
  | Infinite
  | Once
  | PingPong
deriving DecidableEq, Repr

/-- Modelled from the spec: `crate::types::ExportConfig` (types.rs is not
present under src/; fields are exactly those read by commands/export.rs,
matching spec §3 ExportConfig). Floats are modelled as rationals. -/
structure ExportConfig where
  start_frame : Nat
  end_frame : Nat
  output_scale : Rat
  target_fps : Nat
  speed : Rat
  quality : Nat
  loop_mode : String
  output_path : Option String

/-- Parsing of `config.loop_mode` (export.rs:317-321). -/
def parseLoopMode (s : String) : GifLoopMode :=
  if s = "once" then .Once
  else if s = "pingpong" then .PingPong
  else .Infinite

/-- The target frame count of the export's temporal-resample stage
(export.rs:277-281): `round(((trimmed_count / capture_fps) / speed) ×
target_fps)` floored to at least 1, where `speed` is the already clamped
speed factor. -/
def targetFrameCount (trimmed_count recording_fps : Nat) (speed : Rat)
    (target_fps : Nat) : Nat :=
  max (roundNN (((trimmed_count : Rat) / (recording_fps : Rat) / speed)
        * (target_fps : Rat))) 1

/-- Model of the temporal-resample stage of `export_gif`
(export.rs:277-293): clamp the speed to `[0.1, 10.0]`, compute the target
frame count, and either keep all trimmed frames (when the target is at
least the trimmed count) or sample `target` frames at nearest indices. -/
def sampleFrames (trimmed_frames : List Img) (recording_fps : Nat)
    (speed0 : Rat) (target_fps : Nat) : List Img :=
  let speed := ratClamp speed0 (1 / 10) 10
  let trimmed_count := trimmed_frames.length
  let target := targetFrameCount trimmed_count recording_fps speed target_fps
  if trimmed_count ≤ target then trimmed_frames
  else
    (List.range target).map (fun (i : Nat) =>
      let src_idx := roundNN ((i : Rat) * ((trimmed_count : Rat) - 1)
        / ((max (target - 1) 1 : Nat) : Rat))
      trimmed_frames.getD (min src_idx (trimmed_count - 1)) defaultImg)

/-- Spatial-scale stage of `export_gif` (export.rs:305-315): clamp the
scale to `[0.1, 1.0]`; when it differs from 1 by more than 0.01, resize
every frame to the truncated scaled dimensions (the Triangle resampling
filter is external library code; its pixel values are abstracted as a
direct lookup, which no claim depends on). -/
def scaleFrames (frames : List Img) (output_scale0 : Rat) : List Img :=
  let output_scale := ratClamp output_scale0 (1 / 10) 1
  if 1 / 100 < |output_scale - 1| then
    frames.map (fun f =>
      ⟨(((f.width : Rat) * output_scale).floor).toNat,
       (((f.height : Rat) * output_scale).floor).toNat,
       f.pix⟩)
  else frames

/-- Loop-mode expansion stage of `export_gif` (export.rs:323-332): in
PingPong mode with more than 2 frames, append the reversed interior
(`frames[1..len-1]` reversed) after the forward sequence; all other cases
pass the sequence through unchanged. -/
def applyLoopMode (mode : GifLoopMode) (frames : List Img) : List Img :=
  match mode with
  | .PingPong =>
    if 2 < frames.length then
      frames ++ ((frames.drop 1).take (frames.length - 2)).reverse
    else frames
  | _ => frames

/-- Per-frame GIF delay in centiseconds (export.rs:374-378):
`(100.0 / target_fps).max(1.0) as u16` for positive `target_fps`
(truncation of the clamped quotient), else the default 10. -/
def frameDelay (target_fps : Nat) : Nat :=
  if 0 < target_fps then (⌊max ((100 : Rat) / (target_fps : Rat)) 1⌋).toNat
  else 10

/-- Events emitted by `export_gif` through the Tauri event channel:
`export-progress {current, total}` and the terminal
`export-complete {success, error?}`. -/
inductive ExportEvent where
  | progress (current total : Nat)
  | complete (success : Bool) (error : Option String)
deriving DecidableEq, Repr

/-- Result of the background export thread: the emitted events, the frames
written to the encoder, and the created output file path (none when the
export failed before creating the file). -/
structure ExportOutcome where
  events : List ExportEvent
  encoded : List Img
  filePath : Option String

/-- Modelled from the spec: the RecordingSession slice of the shared
application state (`crate::state::AppState`, not present under src/; the
fields are those read by commands/export.rs plus the spec §3
RecordingSession `{active, region, frames, capture_fps}`; the region is
kept abstract as its contents are never read by the export path). -/
structure AppState where
  recording : Bool
  region : Option (Int × Int × Nat × Nat)
  frames : List Img
  recording_fps : Nat

/-- Model of the background thread of `export_gif` (export.rs:259-427):
trim the cloned frames to the clamped `[start, end)` range (failing with
"Invalid frame range" when empty), temporally resample, spatially scale,
expand the loop mode, then encode every final frame, emitting one progress
event per frame and a single terminal completion event. File-system and
encoder errors are external and not modelled (the model is the
error-free run); the timestamped default file name is abstract. -/
def exportThread (all_frames : List Img) (total_frames recording_fps : Nat)
    (config : ExportConfig) : ExportOutcome :=
  let start := min config.start_frame total_frames
  let e := min config.end_frame total_frames
  if e ≤ start then
    ⟨[.complete false (some "Invalid frame range")], [], none⟩
  else
    let trimmed_frames := (all_frames.drop start).take (e - start)
    let sampled_frames :=
      sampleFrames trimmed_frames recording_fps config.speed config.target_fps
    if sampled_frames.isEmpty then
      ⟨[.complete false (some "No frames after sampling")], [], none⟩
    else
      let scaled_frames := scaleFrames sampled_frames config.output_scale
      let gif_loop_mode := parseLoopMode config.loop_mode
      let final_frames := applyLoopMode gif_loop_mode scaled_frames
      let filename := config.output_path.getD "recording_<timestamp>.gif"
      let frame_count := final_frames.length
      ⟨(List.range frame_count).map (fun i => .progress (i + 1) frame_count)
         ++ [.complete true none],
       final_frames, some filename⟩

/-- Model of `export_gif` (export.rs:233-430): when the session has no
frames, emit a single failure event and stop; otherwise read the frame
count and capture fps, clone the frames, release the lock and run the
export thread on the clone. Returns the thread's outcome together with the
session state as left behind by the command. -/
def export_gif (s : AppState) (config : ExportConfig) :
    ExportOutcome × AppState :=
  if s.frames.isEmpty then
    (⟨[.complete false (some "No frames to export")], [], none⟩, s)
  else
    let total_frames := s.frames.length
    let recording_fps := s.recording_fps
    let all_frames := s.frames
    (exportThread all_frames total_frames recording_fps config, s)

/-- Model of the `frame_count` field computed by `estimate_export_size`
(export.rs:16-66, the claims only concern this field): 0 with no frames;
otherwise the rounded output-duration × target-fps count (with no floor at
1 and no cap at the trimmed count), doubled minus 2 in ping-pong mode when
above 2. -/
def estimate_export_size_frame_count (frames : List Img)
    (recording_fps : Nat) (config : ExportConfig) : Nat :=
  if frames.isEmpty then 0
  else
    let start := min config.start_frame frames.length
    let e := min config.end_frame frames.length
    let trimmed_count := if start < e then e - start else 0
    let speed := ratClamp config.speed (1 / 10) 10
    let original_duration := (trimmed_count : Rat) / (recording_fps : Rat)
    let output_duration := original_duration / speed
    let final_frame_count := roundNN (output_duration * (config.target_fps : Rat))
    if config.loop_mode = "pingpong" ∧ 2 < final_frame_count then
      final_frame_count * 2 - 2
    else final_frame_count


/-- All channels of every pixel fit in a byte, as Rust's `u8` channels
guarantee for every real `RgbaImage`. -/
def Img.byteBounded (f : Img) : Prop :=
  ∀ x y, (f.pix x y).r ≤ 255 ∧ (f.pix x y).g ≤ 255 ∧ (f.pix x y).b ≤ 255

/-- The claim's description of the scroll-delta decision, written with the
genuine list minimum (`List.min?`): take the minimum comparison score among the
scroll-down candidates and among the scroll-up candidates; the winner of
the comparison (down wins ties) is accepted only if its score is strictly
below `width × strip_height × 50`, otherwise the delta is 0; an accepted
winner is reported as the first candidate offset attaining the minimum. -/
def detectScrollDeltaClaim (prev curr : Img) : Int :=
  let w := prev.width
  let cands := scrollCandidates prev.height
  let scoreD := fun o => compare_strips prev curr o 0 w stripHeight
  let scoreU := fun o => compare_strips prev curr 0 o w stripHeight
  let minD := ((cands.map scoreD).min?).getD i64MAX
  let minU := ((cands.map scoreU).min?).getD i64MAX
  let threshold : Int := (w : Int) * (stripHeight : Int) * 50
  if minD < threshold ∧ minD ≤ minU then
    (((cands.find? (fun o => scoreD o == minD)).getD 0 : Nat) : Int)
  else if minU < threshold then
    -(((cands.find? (fun o => scoreU o == minU)).getD 0 : Nat) : Int)
  else 0

/-- States of the scroll session reachable through the scroll-capture
operations, indexed by the height of the composite's initial frame and the
list of accepted stitch extensions `min(|delta|, frame_height)`. The
state-changing transitions are: fresh state, `start_scroll_capture`, an
accepted `capture_scroll_frame_auto` step, `finish_scroll_capture` and
`cancel_scroll_capture`; every other outcome of the commands (errors, and
steps with `|delta| < 10`) leaves the state unchanged, so it needs no
constructor. -/
inductive ScrollReach : ScrollState → Nat → List Nat → Prop where
  | init : ScrollReach initScrollState 0 []
  | start (s : ScrollState) (h0 : Nat) (ex : List Nat) (f : Img) :
      ScrollReach s h0 ex → ScrollReach (startScroll f) f.height []
  | step (s s' : ScrollState) (h0 : Nat) (ex : List Nat) (f last : Img) :
      ScrollReach s h0 ex →
      s.scroll_frames.getLast? = some last →
      10 ≤ (detect_scroll_delta last f).natAbs →
      captureScrollFrameAuto s f = .ok s' →
      ScrollReach s' h0
        (ex ++ [min (detect_scroll_delta last f).natAbs f.height])
  | finish (s : ScrollState) (h0 : Nat) (ex : List Nat) :
      ScrollReach s h0 ex → ScrollReach (finishScrollCapture s) 0 []
  | cancel (s : ScrollState) (h0 : Nat) (ex : List Nat) :
      ScrollReach s h0 ex → ScrollReach (cancelScrollCapture s) 0 []

/-- A single-colour image of the given dimensions (concrete test input). -/
def constImg (w h : Nat) : Img := ⟨w, h, fun _ _ => ⟨7, 7, 7, 255⟩⟩

/-- Ten identical 2×2 frames, a concrete recording used to evaluate the
size estimator against the export pipeline. -/
def framesTen : List Img := List.replicate 10 (constImg 2 2)

/-- Concrete export configuration: full range of `framesTen`, scale 1,
60 fps target, speed 1, infinite loop. -/
def cfgTen : ExportConfig := ⟨0, 10, 1, 60, 1, 80, "infinite", none⟩

/-- Concrete export configuration with an inverted frame range. -/
def cfgInverted : ExportConfig := ⟨5, 2, 1, 10, 1, 80, "infinite", none⟩

/-- The running minimum over a list of integers never exceeds its seed. -/
theorem foldl_min_le_init (l : List Int) (a : Int) : l.foldl min a ≤ a := by
  induction l generalizing a with
  | nil => simp
  | cons x xs ih => exact le_trans (ih (min a x)) (min_le_left a x)

/-- Characterization of the single-pass best-candidate loop of
`detect_scroll_delta`: its score component is the running minimum of all
candidate scores seeded with the accumulator score, and its offset
component is the first candidate attaining that minimum whenever some
candidate improves on the seed. -/
theorem bestPair_go (score : Nat → Int) (cands : List Nat) (b : Nat × Int) :
    cands.foldl (fun b o => if score o < b.2 then (o, score o) else b) b =
      ((if (cands.map score).foldl min b.2 < b.2 then
          (cands.find? (fun o =>
            score o == (cands.map score).foldl min b.2)).getD 0
        else b.1),
       (cands.map score).foldl min b.2) := by
  induction cands generalizing b with
  | nil => simp
  | cons o rest ih =>
    simp only [List.map_cons, List.foldl_cons]
    by_cases hlt : score o < b.2
    · rw [if_pos hlt, ih (o, score o)]
      have hmin : min b.2 (score o) = score o := min_eq_right (le_of_lt hlt)
      rw [hmin]
      have hle : (rest.map score).foldl min (score o) ≤ score o :=
        foldl_min_le_init _ _
      have hlt2 : (rest.map score).foldl min (score o) < b.2 :=
        lt_of_le_of_lt hle hlt
      rw [if_pos hlt2]
      by_cases heq : score o = (rest.map score).foldl min (score o)
      · rw [List.find?_cons_of_pos _ (by simpa using heq)]
        have hnlt : ¬(rest.map score).foldl min (score o) < score o := by
          rw [← heq]
          exact lt_irrefl _
        rw [if_neg hnlt]
        simp
      · have hlt3 : (rest.map score).foldl min (score o) < score o :=
          lt_of_le_of_ne hle (fun h => heq h.symm)
        rw [List.find?_cons_of_neg _ (by simpa using heq)]
        simp [hlt3]
    · rw [if_neg hlt, ih b]
      have hmin : min b.2 (score o) = b.2 := min_eq_left (not_lt.mp hlt)
      rw [hmin]
      by_cases h2 : (rest.map score).foldl min b.2 < b.2
      · have hne : ¬score o = (rest.map score).foldl min b.2 := by
          intro h
          exact hlt (lt_of_le_of_lt (le_of_eq h) h2)
        rw [List.find?_cons_of_neg _ (by simpa using hne)]
      · simp only [if_neg h2]

/-- `bestPair` computed from the initial `(0, i64::MAX)` accumulator. -/
theorem bestPair_eq (score : Nat → Int) (cands : List Nat) :
    bestPair score cands =
      ((if (cands.map score).foldl min i64MAX < i64MAX then
          (cands.find? (fun o =>
            score o == (cands.map score).foldl min i64MAX)).getD 0
        else 0),
       (cands.map score).foldl min i64MAX) :=
  bestPair_go score cands (0, i64MAX)

/-- When every element is at most the seed `i64MAX`, the running minimum is
the genuine list minimum. -/
theorem foldl_min_eq_min? (l : List Int) (hb : ∀ x ∈ l, x ≤ i64MAX) :
    l.foldl min i64MAX = (l.min?).getD i64MAX := by
  cases l with
  | nil => simp
  | cons a as =>
    rw [List.min?_cons', Option.getD_some, List.foldl_cons,
      min_eq_right (hb a (by simp))]

/-- A fold that adds at most `c` per element grows the accumulator by at
most `c` times the list length. -/
theorem foldl_add_le {α : Type} (f : Int → α → Int) (c : Int) (l : List α)
    (h : ∀ (a : Int) (x : α), x ∈ l → f a x ≤ a + c) :
    ∀ acc : Int, l.foldl f acc ≤ acc + c * l.length := by
  induction l with
  | nil => intro acc; simp
  | cons x xs ih =>
    intro acc
    have h1 : f acc x ≤ acc + c := h acc x (List.mem_cons_self x xs)
    have h2 : xs.foldl f (f acc x) ≤ f acc x + c * xs.length :=
      ih (fun a z hz => h a z (List.mem_cons_of_mem x hz)) (f acc x)
    simp only [List.foldl_cons, List.length_cons]
    have h3 : f acc x + c * xs.length ≤ acc + c + c * xs.length := by linarith
    have h4 : ((xs.length + 1 : Nat) : Int) = (xs.length : Int) + 1 := by
      push_cast
      ring
    rw [h4]
    calc xs.foldl f (f acc x) ≤ f acc x + c * xs.length := h2
      _ ≤ acc + c + c * xs.length := h3
      _ = acc + c * ((xs.length : Int) + 1) := by ring

/-- A strip-comparison score never exceeds `i64::MAX` for byte-bounded
images of `u32` width: each sampled pixel contributes at most 3 × 255. -/
theorem compare_strips_le (prev curr : Img) (py cy w : Nat)
    (hp : prev.byteBounded) (hc : curr.byteBounded) (hw : w < 2 ^ 32) :
    compare_strips prev curr py cy w stripHeight ≤ i64MAX := by
  unfold compare_strips
  split
  · exact le_refl _
  · have hcols : (sampledCols w).length = (w + 3) / 4 := by
      simp [sampledCols]
    have hinner : ∀ (y : Nat) (acc : Int),
        (sampledCols w).foldl (fun acc2 x =>
          acc2 + |((prev.pix x (py + y)).r : Int) - ((curr.pix x (cy + y)).r : Int)|
               + |((prev.pix x (py + y)).g : Int) - ((curr.pix x (cy + y)).g : Int)|
               + |((prev.pix x (py + y)).b : Int) - ((curr.pix x (cy + y)).b : Int)|) acc
          ≤ acc + 765 * ((((w + 3) / 4 : Nat)) : Int) := by
      intro y acc
      have step := foldl_add_le (l := sampledCols w) (c := 765)
        (f := fun acc2 x =>
          acc2 + |((prev.pix x (py + y)).r : Int) - ((curr.pix x (cy + y)).r : Int)|
               + |((prev.pix x (py + y)).g : Int) - ((curr.pix x (cy + y)).g : Int)|
               + |((prev.pix x (py + y)).b : Int) - ((curr.pix x (cy + y)).b : Int)|)
        (by
          intro a x _
          obtain ⟨hr1, hg1, hb1⟩ := hp x (py + y)
          obtain ⟨hr2, hg2, hb2⟩ := hc x (cy + y)
          have e1 : |((prev.pix x (py + y)).r : Int) - ((curr.pix x (cy + y)).r : Int)| ≤ 255 :=
            abs_le.mpr (by constructor <;> omega)
          have e2 : |((prev.pix x (py + y)).g : Int) - ((curr.pix x (cy + y)).g : Int)| ≤ 255 :=
            abs_le.mpr (by constructor <;> omega)
          have e3 : |((prev.pix x (py + y)).b : Int) - ((curr.pix x (cy + y)).b : Int)| ≤ 255 :=
            abs_le.mpr (by constructor <;> omega)
          dsimp only
          linarith) acc
      calc (sampledCols w).foldl _ acc ≤ acc + 765 * (sampledCols w).length := step
        _ = acc + 765 * ((((w + 3) / 4 : Nat)) : Int) := by rw [hcols]
    have houter := foldl_add_le (l := List.range stripHeight)
      (c := 765 * ((((w + 3) / 4 : Nat)) : Int))
      (f := fun acc y =>
        (sampledCols w).foldl (fun acc2 x =>
          acc2 + |((prev.pix x (py + y)).r : Int) - ((curr.pix x (cy + y)).r : Int)|
               + |((prev.pix x (py + y)).g : Int) - ((curr.pix x (cy + y)).g : Int)|
               + |((prev.pix x (py + y)).b : Int) - ((curr.pix x (cy + y)).b : Int)|) acc)
      (by
        intro a y _
        exact hinner y a) 0
    have hlen : (List.range stripHeight).length = 20 := by simp [stripHeight]
    have hdiv : (w + 3) / 4 ≤ 2 ^ 30 := by omega
    have hbound : (0 : Int) + 765 * ((((w + 3) / 4 : Nat)) : Int)
        * ((List.range stripHeight).length : Int) ≤ i64MAX := by
      rw [hlen]
      have hq : ((((w + 3) / 4 : Nat)) : Int) ≤ 2 ^ 30 := by exact_mod_cast hdiv
      have hq0 : (0 : Int) ≤ ((((w + 3) / 4 : Nat)) : Int) := Int.natCast_nonneg _
      unfold i64MAX
      push_cast
      nlinarith
    exact le_trans houter hbound

/-- C3: for every pair of same-sized frames (real frames: `u32` dimensions
and byte channels), `detect_scroll_delta` selects the minimum-score offset
among the scroll-down candidates and the minimum among the scroll-up
candidates (candidate offsets 10 up to `min(height/2, 200)` in steps of 5,
as `scrollCandidates`); the winner of the comparison is accepted only if
its score is strictly below `width × strip_height × 50`, otherwise the
returned delta is zero; when the two minima tie, the scroll-down candidate
wins — all as stated by the claim-shaped `detectScrollDeltaClaim`. -/
theorem detect_scroll_delta_minimum_rule (prev curr : Img)
    (hw : prev.width = curr.width) (hh : prev.height = curr.height)
    (hw32 : prev.width < 2 ^ 32)
    (hbp : prev.byteBounded) (hbc : curr.byteBounded) :
    detect_scroll_delta prev curr = detectScrollDeltaClaim prev curr := by
  have hboundD : ∀ x ∈ (scrollCandidates prev.height).map
      (fun o => compare_strips prev curr o 0 prev.width stripHeight), x ≤ i64MAX := by
    intro x hx
    obtain ⟨o, _, rfl⟩ := List.mem_map.mp hx
    exact compare_strips_le prev curr o 0 prev.width hbp hbc hw32
  have hboundU : ∀ x ∈ (scrollCandidates prev.height).map
      (fun o => compare_strips prev curr 0 o prev.width stripHeight), x ≤ i64MAX := by
    intro x hx
    obtain ⟨o, _, rfl⟩ := List.mem_map.mp hx
    exact compare_strips_le prev curr 0 o prev.width hbp hbc hw32
  have hth : (prev.width : Int) * (stripHeight : Int) * 50 < i64MAX := by
    have hcast : (prev.width : Int) < 2 ^ 32 := by exact_mod_cast hw32
    have h0 : (0 : Int) ≤ (prev.width : Int) := Int.natCast_nonneg _
    unfold i64MAX stripHeight
    push_cast
    linarith
  simp only [detect_scroll_delta, detectScrollDeltaClaim]
  rw [if_neg (by push_neg; exact ⟨hw, hh⟩)]
  rw [bestPair_eq, bestPair_eq, foldl_min_eq_min? _ hboundD,
    foldl_min_eq_min? _ hboundU]
  by_cases h1 : ((((scrollCandidates prev.height).map
        (fun o => compare_strips prev curr o 0 prev.width stripHeight)).min?).getD i64MAX
          < (prev.width : Int) * (stripHeight : Int) * 50)
      ∧ ((((scrollCandidates prev.height).map
        (fun o => compare_strips prev curr o 0 prev.width stripHeight)).min?).getD i64MAX
          ≤ (((scrollCandidates prev.height).map
        (fun o => compare_strips prev curr 0 o prev.width stripHeight)).min?).getD i64MAX)
  · rw [if_pos h1, if_pos h1, if_pos (lt_trans h1.1 hth)]
  · rw [if_neg h1, if_neg h1]
    by_cases h2 : ((((scrollCandidates prev.height).map
        (fun o => compare_strips prev curr 0 o prev.width stripHeight)).min?).getD i64MAX
          < (prev.width : Int) * (stripHeight : Int) * 50)
    · rw [if_pos h2, if_pos h2, if_pos (lt_trans h2 hth)]
    · rw [if_neg h2, if_neg h2]

/-- Witness for C3: the minimum-score rule evaluated at a concrete pair of
2×30 frames. -/
theorem detect_scroll_delta_minimum_rule_witness :
    detect_scroll_delta (constImg 2 30) (constImg 2 30)
      = detectScrollDeltaClaim (constImg 2 30) (constImg 2 30) :=
  detect_scroll_delta_minimum_rule (constImg 2 30) (constImg 2 30) rfl rfl
    (by norm_num [constImg])
    (fun _ _ => ⟨by norm_num [constImg], by norm_num [constImg],
      by norm_num [constImg]⟩)
    (fun _ _ => ⟨by norm_num [constImg], by norm_num [constImg],
      by norm_num [constImg]⟩)

/-- A lower bound below the seed and below every element bounds the
running minimum. -/
theorem le_foldl_min (l : List Int) (a c : Int) (ha : c ≤ a)
    (hl : ∀ x ∈ l, c ≤ x) : c ≤ l.foldl min a := by
  induction l generalizing a with
  | nil => exact ha
  | cons x xs ih =>
    rw [List.foldl_cons]
    exact ih (min a x) (le_min ha (hl x (by simp)))
      (fun z hz => hl z (by simp [hz]))

/-- Counterexample to C2 as stated: a 4×40 single-colour frame compared
with itself yields detected scroll delta 10, not 0 — every interior strip
of a uniform image matches the top strip with score 0, so the first
candidate offset is accepted. -/
theorem detect_scroll_delta_identical_counterexample :
    detect_scroll_delta (constImg 4 40) (constImg 4 40) ≠ 0 := by
  decide

/-- C2 (amended): for every pair of frames with the same (`u32`-sized)
dimensions and identical pixel content, in which every candidate offset's
strip comparison, in both directions, scores at least the acceptance
threshold `width × strip_height × 50` (in particular whenever frame rows
vary enough that no interior strip resembles the edge strips),
`detect_scroll_delta` returns 0, and the scroll-capture step
`capture_scroll_frame_auto` leaves the scroll session unchanged (a no-op
composite extension). -/
theorem detect_identical_zero_and_noop (prev curr : Img) (s : ScrollState)
    (hw : prev.width = curr.width) (hh : prev.height = curr.height)
    (hw32 : prev.width < 2 ^ 32)
    (_hpix : ∀ x y, prev.pix x y = curr.pix x y)
    (hscore : ∀ o ∈ scrollCandidates prev.height,
      (prev.width : Int) * (stripHeight : Int) * 50
          ≤ compare_strips prev curr o 0 prev.width stripHeight ∧
      (prev.width : Int) * (stripHeight : Int) * 50
          ≤ compare_strips prev curr 0 o prev.width stripHeight)
    (hcap : s.scroll_capturing = true)
    (hlast : s.scroll_frames.getLast? = some prev) :
    detect_scroll_delta prev curr = 0 ∧
      captureScrollFrameAuto s curr = .ok s := by
  have hth : (prev.width : Int) * (stripHeight : Int) * 50 ≤ i64MAX := by
    have hcast : (prev.width : Int) < 2 ^ 32 := by exact_mod_cast hw32
    have h0 : (0 : Int) ≤ (prev.width : Int) := Int.natCast_nonneg _
    unfold i64MAX stripHeight
    push_cast
    linarith
  have hdet : detect_scroll_delta prev curr = 0 := by
    simp only [detect_scroll_delta]
    rw [if_neg (by push_neg; exact ⟨hw, hh⟩)]
    have hD : (prev.width : Int) * (stripHeight : Int) * 50
        ≤ (bestPair (fun o => compare_strips prev curr o 0 prev.width stripHeight)
            (scrollCandidates prev.height)).2 := by
      rw [bestPair_eq]
      refine le_foldl_min _ _ _ hth ?_
      intro x hx
      obtain ⟨o, ho, rfl⟩ := List.mem_map.mp hx
      exact (hscore o ho).1
    have hU : (prev.width : Int) * (stripHeight : Int) * 50
        ≤ (bestPair (fun o => compare_strips prev curr 0 o prev.width stripHeight)
            (scrollCandidates prev.height)).2 := by
      rw [bestPair_eq]
      refine le_foldl_min _ _ _ hth ?_
      intro x hx
      obtain ⟨o, ho, rfl⟩ := List.mem_map.mp hx
      exact (hscore o ho).2
    rw [if_neg (by
      rintro ⟨h1, -⟩
      exact absurd hD (not_le.mpr h1))]
    rw [if_neg (fun h2 => absurd hU (not_le.mpr h2))]
  refine ⟨hdet, ?_⟩
  simp only [captureScrollFrameAuto, hcap, hlast, hdet]
  norm_num

/-- Witness for C2 (amended): a concrete 4×20 frame (too short to have any
candidate offset) compared with itself inside a freshly started scroll
session: the delta is 0 and the step is a no-op. -/
theorem detect_identical_zero_and_noop_witness :
    detect_scroll_delta (constImg 4 20) (constImg 4 20) = 0 ∧
      captureScrollFrameAuto (startScroll (constImg 4 20)) (constImg 4 20)
        = .ok (startScroll (constImg 4 20)) :=
  detect_identical_zero_and_noop (constImg 4 20) (constImg 4 20)
    (startScroll (constImg 4 20)) rfl rfl (by norm_num [constImg])
    (fun _ _ => rfl)
    (by
      intro o ho
      simp [scrollCandidates, constImg] at ho)
    rfl rfl

/-- C4: for every composite `base` and same-width `new_frame`, stitching
with a nonzero delta `d` succeeds and produces a composite whose height is
the old height plus exactly `min(|d|, new_frame.height)`; when
`|d| ≥ new_frame.height` the height grows by exactly `new_frame.height`
(full concatenation); the base rows are preserved and the added rows come
from the new frame's far edge (bottom rows for `d > 0`, top rows for
`d < 0`), so no pixel is duplicated or lost. -/
theorem stitch_extends (base new_frame : Img) (d : Int)
    (hw : base.width = new_frame.width) (hd : d ≠ 0) :
    ∃ r, stitch_scroll_image base new_frame d = .ok r ∧
      r.width = base.width ∧
      r.height = base.height + min d.natAbs new_frame.height ∧
      (new_frame.height ≤ d.natAbs →
        r.height = base.height + new_frame.height) ∧
      (0 < d →
        (∀ x y, y < base.height → r.pix x y = base.pix x y) ∧
        (∀ x i, i < min d.natAbs new_frame.height →
          r.pix x (base.height + i)
            = new_frame.pix x
                (new_frame.height - min d.natAbs new_frame.height + i))) ∧
      (d < 0 →
        (∀ x i, i < min d.natAbs new_frame.height →
          r.pix x i = new_frame.pix x i) ∧
        (∀ x y, y < base.height →
          r.pix x (min d.natAbs new_frame.height + y) = base.pix x y)) := by
  unfold stitch_scroll_image
  rw [if_neg (by simp [hw])]
  rcases lt_or_gt_of_ne hd with hneg | hpos
  · rw [if_neg (by omega)]
    by_cases hcase : new_frame.height ≤ d.natAbs
    · rw [if_pos hcase]
      have hmin : min d.natAbs new_frame.height = new_frame.height :=
        min_eq_right hcase
      refine ⟨_, rfl, rfl, ?_, ?_, ?_, ?_⟩
      · dsimp only; rw [hmin]; omega
      · intro _; dsimp only; omega
      · intro h; exact absurd h (by omega)
      · intro _
        constructor
        · intro x i hi
          rw [hmin] at hi
          dsimp only
          rw [if_pos hi]
        · intro x y hy
          rw [hmin]
          dsimp only
          rw [if_neg (by omega), if_pos (by omega)]
          congr 1
          omega
    · rw [if_neg hcase]
      have hmin : min d.natAbs new_frame.height = d.natAbs :=
        min_eq_left (by omega)
      refine ⟨_, rfl, rfl, ?_, ?_, ?_, ?_⟩
      · rfl
      · intro h; exact absurd h hcase
      · intro h; exact absurd h (by omega)
      · intro _
        constructor
        · intro x i hi
          dsimp only
          rw [if_pos hi]
        · intro x y hy
          dsimp only
          rw [if_neg (by omega), if_pos (by omega)]
          congr 1
          omega
  · rw [if_pos hpos]
    by_cases hcase : new_frame.height ≤ d.natAbs
    · rw [if_pos hcase]
      have hmin : min d.natAbs new_frame.height = new_frame.height :=
        min_eq_right hcase
      refine ⟨_, rfl, rfl, ?_, ?_, ?_, ?_⟩
      · dsimp only; rw [hmin]
      · intro _; rfl
      · intro _
        constructor
        · intro x y hy
          dsimp only
          rw [if_pos hy]
        · intro x i hi
          rw [hmin] at hi ⊢
          dsimp only
          rw [if_neg (by omega), if_pos (by omega)]
          congr 1
          omega
      · intro h; exact absurd h (by omega)
    · rw [if_neg hcase]
      have hmin : min d.natAbs new_frame.height = d.natAbs :=
        min_eq_left (by omega)
      refine ⟨_, rfl, rfl, ?_, ?_, ?_, ?_⟩
      · rfl
      · intro h; exact absurd h hcase
      · intro _
        constructor
        · intro x y hy
          dsimp only
          rw [if_pos hy]
        · intro x i hi
          dsimp only
          rw [if_neg (by omega), if_pos (by omega)]
          congr 1
          omega
      · intro h; exact absurd h (by omega)

/-- Witness for C4: stitching a 2×3 composite with a 2×4 frame at delta 2
grows the height by exactly min(2, 4) = 2. -/
theorem stitch_extends_witness :
    ∃ r, stitch_scroll_image (constImg 2 3) (constImg 2 4) 2 = .ok r ∧
      r.height = (constImg 2 3).height
        + min (2 : Int).natAbs (constImg 2 4).height := by
  obtain ⟨r, h1, _, h3, _⟩ :=
    stitch_extends (constImg 2 3) (constImg 2 4) 2 rfl (by decide)
  exact ⟨r, h1, h3⟩

/-- Rounding never overshoots an integer upper bound of the argument. -/
theorem roundNN_le (q : Rat) (n : Nat) (h : q ≤ n) : roundNN q ≤ n := by
  unfold roundNN
  rw [Int.toNat_le]
  have hlt : ⌊q + 1 / 2⌋ < (n : Int) + 1 := by
    rw [Int.floor_lt]
    push_cast
    linarith
  omega

/-- Rounding of zero. -/
theorem roundNN_zero : roundNN 0 = 0 := by
  unfold roundNN
  norm_num

/-- C5: for every non-empty trimmed frame sequence, positive capture fps,
clamped speed in [0.1, 10] and any target fps, the temporal resample
computes `target = max(1, round(((count / fps) / speed) × target_fps))`
(`targetFrameCount`); when `target ≥ count` it outputs exactly the trimmed
sequence (no duplication), and otherwise it outputs `target` frames at
source indices `round(i × (count − 1) / (target − 1))` for `i` in
`0..target`, with index 0 used when `target = 1`. -/
theorem sample_frames_spec (frames : List Img) (fps : Nat) (speed : Rat)
    (tfps : Nat) (hne : frames ≠ []) (_hfps : 0 < fps)
    (hs1 : 1 / 10 ≤ speed) (hs2 : speed ≤ 10) :
    (frames.length ≤ targetFrameCount frames.length fps speed tfps →
      sampleFrames frames fps speed tfps = frames) ∧
    (targetFrameCount frames.length fps speed tfps < frames.length →
      sampleFrames frames fps speed tfps =
        (List.range (targetFrameCount frames.length fps speed tfps)).map
          (fun (i : Nat) => frames.getD
            (if targetFrameCount frames.length fps speed tfps = 1 then 0
             else roundNN ((i : Rat) * ((frames.length : Rat) - 1)
               / ((targetFrameCount frames.length fps speed tfps : Rat) - 1)))
            defaultImg)) := by
  have hclamp : ratClamp speed (1 / 10) 10 = speed := by
    unfold ratClamp
    rw [max_eq_left hs1, min_eq_left hs2]
  constructor
  · intro hge
    simp only [sampleFrames, hclamp]
    rw [if_pos hge]
  · intro hlt
    simp only [sampleFrames, hclamp]
    rw [if_neg (not_le.mpr hlt)]
    apply List.map_congr_left
    intro i hi
    rw [List.mem_range] at hi
    have hT1 : 1 ≤ targetFrameCount frames.length fps speed tfps :=
      le_max_right _ 1
    by_cases hT : targetFrameCount frames.length fps speed tfps = 1
    · rw [hT] at hi ⊢
      have hi0 : i = 0 := by omega
      subst hi0
      rw [if_pos rfl]
      have harg : ((0 : Nat) : Rat) * ((frames.length : Rat) - 1)
          / ((max (1 - 1) 1 : Nat) : Rat) = 0 := by norm_num
      rw [harg, roundNN_zero]
      simp
    · rw [if_neg hT]
      have hT2 : 2 ≤ targetFrameCount frames.length fps speed tfps := by omega
      have hmax : max (targetFrameCount frames.length fps speed tfps - 1) 1
          = targetFrameCount frames.length fps speed tfps - 1 := by omega
      rw [hmax]
      have hcast : (((targetFrameCount frames.length fps speed tfps - 1 : Nat)) : Rat)
          = ((targetFrameCount frames.length fps speed tfps : Nat) : Rat) - 1 := by
        push_cast [Nat.cast_sub hT1]
        ring
      rw [hcast]
      have hL1 : 1 ≤ frames.length := by
        cases frames with
        | nil => exact absurd rfl hne
        | cons a l => simp
      have hqle : (i : Rat) * ((frames.length : Rat) - 1)
          / (((targetFrameCount frames.length fps speed tfps : Nat) : Rat) - 1)
          ≤ (((frames.length - 1 : Nat)) : Rat) := by
        have hc : (0 : Rat) < ((targetFrameCount frames.length fps speed tfps : Nat) : Rat) - 1 := by
          have h2 : (2 : Rat) ≤ ((targetFrameCount frames.length fps speed tfps : Nat) : Rat) := by
            exact_mod_cast hT2
          linarith
        rw [div_le_iff₀ hc]
        have hia : (i : Rat) ≤ ((targetFrameCount frames.length fps speed tfps : Nat) : Rat) - 1 := by
          have h3 : (i : Rat) + 1 ≤ ((targetFrameCount frames.length fps speed tfps : Nat) : Rat) := by
            exact_mod_cast hi
          linarith
        have hb0 : (0 : Rat) ≤ (frames.length : Rat) - 1 := by
          have h4 : (1 : Rat) ≤ (frames.length : Rat) := by exact_mod_cast hL1
          linarith
        have hcastL : (((frames.length - 1 : Nat)) : Rat) = (frames.length : Rat) - 1 := by
          push_cast [Nat.cast_sub hL1]
          ring
        rw [hcastL]
        nlinarith
      have hidx : min (roundNN ((i : Rat) * ((frames.length : Rat) - 1)
          / (((targetFrameCount frames.length fps speed tfps : Nat) : Rat) - 1)))
          (frames.length - 1)
          = roundNN ((i : Rat) * ((frames.length : Rat) - 1)
          / (((targetFrameCount frames.length fps speed tfps : Nat) : Rat) - 1)) :=
        min_eq_left (roundNN_le _ _ hqle)
      rw [hidx]

/-- Witness for C5: 3 frames at 30 fps, speed 1, target 10 fps resample to
the single frame at source index 0. -/
theorem sample_frames_spec_witness :
    sampleFrames (List.replicate 3 (constImg 1 1)) 30 1 10 = [constImg 1 1] := by
  have hT : targetFrameCount 3 30 1 10 = 1 := by
    norm_num [targetFrameCount, roundNN]
  have h := (sample_frames_spec (List.replicate 3 (constImg 1 1)) 30 1 10
    (by simp) (by norm_num) (by norm_num) (by norm_num)).2
    (by simp only [List.length_replicate]; rw [hT]; norm_num)
  rw [h]
  simp [hT]

/-- C6: PingPong loop-mode expansion of an N-frame sequence with N > 2
outputs exactly 2N − 2 frames: the original N frames in order followed by
the interior frames (source indices N−2 down to 1) in reverse, duplicating
neither endpoint; for N ≤ 2 and for the Once/Infinite modes the sequence
passes through unchanged. -/
theorem pingpong_expansion (frames : List Img) (m : GifLoopMode) :
    (2 < frames.length →
      applyLoopMode .PingPong frames
        = frames ++ ((frames.drop 1).take (frames.length - 2)).reverse
      ∧ (applyLoopMode .PingPong frames).length = 2 * frames.length - 2
      ∧ ∀ j < frames.length - 2,
          (applyLoopMode .PingPong frames).getD (frames.length + j) defaultImg
            = frames.getD (frames.length - 2 - j) defaultImg)
    ∧ (frames.length ≤ 2 → applyLoopMode m frames = frames)
    ∧ applyLoopMode .Once frames = frames
    ∧ applyLoopMode .Infinite frames = frames := by
  refine ⟨?_, ?_, rfl, rfl⟩
  · intro hlen
    have heq : applyLoopMode .PingPong frames
        = frames ++ ((frames.drop 1).take (frames.length - 2)).reverse := by
      simp only [applyLoopMode]
      rw [if_pos hlen]
    have hint : ((frames.drop 1).take (frames.length - 2)).length
        = frames.length - 2 := by
      simp
      omega
    refine ⟨heq, ?_, ?_⟩
    · rw [heq]
      simp only [List.length_append, List.length_reverse, hint]
      omega
    · intro j hj
      rw [heq, List.getD_eq_getElem?_getD, List.getD_eq_getElem?_getD]
      rw [List.getElem?_append_right (by omega)]
      have hidx : frames.length + j - frames.length = j := by omega
      rw [hidx]
      rw [List.getElem?_reverse (by rw [hint]; omega)]
      rw [hint]
      rw [List.getElem?_take]
      rw [if_pos (by omega)]
      rw [List.getElem?_drop]
      have hidx2 : 1 + (frames.length - 2 - 1 - j) = frames.length - 2 - j := by
        omega
      rw [hidx2]
  · intro hle
    cases m with
    | PingPong =>
      simp only [applyLoopMode]
      rw [if_neg (by omega)]
    | Once => rfl
    | Infinite => rfl

/-- Witness for C6: ping-pong on 4 concrete frames yields the 6-frame
forward-then-backward sequence; Once passes a 2-frame sequence through. -/
theorem pingpong_expansion_witness :
    applyLoopMode .PingPong
        [constImg 1 1, constImg 1 2, constImg 1 3, constImg 1 4]
      = [constImg 1 1, constImg 1 2, constImg 1 3, constImg 1 4,
         constImg 1 3, constImg 1 2]
    ∧ applyLoopMode .Once [constImg 1 1, constImg 1 2]
      = [constImg 1 1, constImg 1 2] := by
  constructor
  · have h1 := ((pingpong_expansion
      [constImg 1 1, constImg 1 2, constImg 1 3, constImg 1 4] .Once).1
        (by norm_num)).1
    rw [h1]
    rfl
  · exact (pingpong_expansion [constImg 1 1, constImg 1 2] .Once).2.1
      (by norm_num)

/-- Counterexample to C9 as stated: at `target_fps = 40` the encoder delay
is 2 centiseconds (truncation of 2.5), while the claimed
`max(1, round(100/target_fps))` is 3. -/
theorem frameDelay_counterexample :
    frameDelay 40 = 2 ∧ max 1 (roundNN ((100 : Rat) / 40)) = 3 := by
  constructor
  · norm_num [frameDelay]
    rfl
  · norm_num [roundNN]
    rfl

/-- C9 (amended): for every positive `target_fps`, the per-frame delay
written to the encoder is exactly `max(1, floor(100 / target_fps))`
centiseconds (the quotient is truncated, not rounded), derived from
`target_fps` alone. -/
theorem frameDelay_floor (fps : Nat) (h : 0 < fps) :
    frameDelay fps = max 1 (100 / fps) := by
  unfold frameDelay
  rw [if_pos h]
  by_cases hle : fps ≤ 100
  · have hpos : (0 : Rat) < (fps : Rat) := by exact_mod_cast h
    have h1 : (1 : Rat) ≤ (100 : Rat) / fps := by
      rw [le_div_iff₀ hpos]
      have : (fps : Rat) ≤ 100 := by exact_mod_cast hle
      linarith
    rw [max_eq_left h1]
    have hnd : 1 ≤ 100 / fps := (Nat.one_le_div_iff h).mpr hle
    rw [max_eq_right hnd]
    have hfl : ⌊(100 : Rat) / (fps : Rat)⌋.toNat = ⌊(100 : Rat) / (fps : Rat)⌋₊ :=
      Int.floor_toNat _
    rw [hfl, Nat.floor_div_nat]
    norm_num
  · have hpos : (0 : Rat) < (fps : Rat) := by exact_mod_cast h
    push_neg at hle
    have h1 : (100 : Rat) / fps ≤ 1 := by
      rw [div_le_iff₀ hpos]
      have : (100 : Rat) < fps := by exact_mod_cast hle
      linarith
    rw [max_eq_right h1]
    have hnd : 100 / fps = 0 := Nat.div_eq_of_lt hle
    rw [hnd]
    norm_num

/-- Witness for C9 (amended): at 30 fps the delay is 3 centiseconds. -/
theorem frameDelay_floor_witness : 0 < 30 ∧ frameDelay 30 = max 1 (100 / 30) :=
  ⟨by norm_num, frameDelay_floor 30 (by norm_num)⟩

/-- C7 (amended): for every export invocation on a session with a
non-empty frame buffer whose clamped trimmed range is empty (in particular
whenever `start_frame ≥ end_frame`), the export fails with the
"Invalid frame range" error: a single terminal failure event, no frame
encoded, no export-progress event, no output file, and the session state
unchanged. -/
theorem export_invalid_range (s : AppState) (cfg : ExportConfig)
    (hne : s.frames ≠ [])
    (hrange : min cfg.end_frame s.frames.length
      ≤ min cfg.start_frame s.frames.length) :
    export_gif s cfg
      = (⟨[ExportEvent.complete false (some "Invalid frame range")], [], none⟩,
         s) := by
  simp only [export_gif, exportThread]
  rw [if_neg (by simpa [List.isEmpty_iff] using hne)]
  rw [if_pos hrange]

/-- Witness for C7 (amended): a 10-frame session exported with the
inverted range [5, 2). -/
theorem export_invalid_range_witness :
    export_gif ⟨true, none, framesTen, 30⟩ cfgInverted
      = (⟨[ExportEvent.complete false (some "Invalid frame range")], [], none⟩,
         ⟨true, none, framesTen, 30⟩) :=
  export_invalid_range ⟨true, none, framesTen, 30⟩ cfgInverted
    (by simp [framesTen]) (by simp [framesTen, cfgInverted])

/-- Counterexample to C7 as stated: with an empty frame buffer and
`start_frame = 5 ≥ end_frame = 2` the trimmed range is empty, yet the
single failure event carries "No frames to export", not the claimed
InvalidRange error (the emptiness check fires before the range check). -/
theorem export_invalid_range_counterexample :
    (export_gif ⟨false, none, [], 30⟩ cfgInverted).1.events
      = [ExportEvent.complete false (some "No frames to export")]
    ∧ "No frames to export" ≠ "Invalid frame range" := by
  constructor
  · rfl
  · decide

/-- C8: `export_gif` leaves the session state unchanged (its state
component is returned exactly as read), and its outcome depends only on
the cloned `frames` snapshot and `recording_fps` taken before encoding —
two sessions agreeing on those fields produce identical outcomes, and on a
non-empty buffer the outcome is exactly the background thread run on the
snapshot. -/
theorem export_gif_pure (s t : AppState) (cfg : ExportConfig)
    (hf : s.frames = t.frames) (hfps : s.recording_fps = t.recording_fps) :
    (export_gif s cfg).2 = s
    ∧ (export_gif s cfg).1 = (export_gif t cfg).1
    ∧ (s.frames ≠ [] →
        (export_gif s cfg).1
          = exportThread s.frames s.frames.length s.recording_fps cfg) := by
  refine ⟨?_, ?_, ?_⟩
  · unfold export_gif
    split <;> rfl
  · unfold export_gif
    rw [hf, hfps]
    split <;> rfl
  · intro hne
    unfold export_gif
    rw [if_neg (by simpa [List.isEmpty_iff] using hne)]

/-- Witness for C8: a recording session and a differently flagged session
with the same frames produce the same outcome, and the state is
untouched. -/
theorem export_gif_pure_witness :
    (export_gif ⟨true, some (0, 0, 2, 2), framesTen, 30⟩ cfgTen).2
        = ⟨true, some (0, 0, 2, 2), framesTen, 30⟩
    ∧ (export_gif ⟨true, some (0, 0, 2, 2), framesTen, 30⟩ cfgTen).1
        = (export_gif ⟨false, none, framesTen, 30⟩ cfgTen).1 := by
  have h := export_gif_pure ⟨true, some (0, 0, 2, 2), framesTen, 30⟩
    ⟨false, none, framesTen, 30⟩ cfgTen rfl rfl
  exact ⟨h.1, h.2.1⟩

/-- C1 evaluated at the failing input (10 frames at 30 fps, speed 1,
target 60 fps, scale 1, infinite loop): `estimate_export_size` predicts 20
frames while `export_gif` actually encodes 10 — the estimator applies
neither the floor at 1 nor the `target_count ≥ trimmed_count` cap of the
pipeline. -/
theorem estimator_pipeline_mismatch :
    estimate_export_size_frame_count framesTen 30 cfgTen = 20
    ∧ ((export_gif ⟨false, none, framesTen, 30⟩ cfgTen).1).encoded.length
        = 10 := by
  have hT : targetFrameCount 10 30 1 60 = 20 := by
    norm_num [targetFrameCount, roundNN]
    rfl
  have hclamp : ratClamp 1 (1 / 10) 10 = 1 := by norm_num [ratClamp]
  have hlen : framesTen.length = 10 := by simp [framesTen]
  constructor
  · simp only [estimate_export_size_frame_count, cfgTen, framesTen]
    norm_num [ratClamp, roundNN]
    rw [if_neg (by decide)]
    rfl
  · have hsample : sampleFrames framesTen 30 1 60 = framesTen := by
      simp only [sampleFrames, hclamp, hlen, hT]
      norm_num
    have hscale : scaleFrames framesTen 1 = framesTen := by
      simp only [scaleFrames]
      norm_num [ratClamp]
    simp only [export_gif, exportThread, cfgTen]
    rw [if_neg (by simp [framesTen])]
    rw [hlen]
    rw [if_neg (by norm_num)]
    have htrim : (framesTen.drop (min 0 10)).take (min 10 10 - min 0 10)
        = framesTen := by
      simp [framesTen]
    rw [htrim, hsample]
    rw [if_neg (by simp [framesTen])]
    rw [hscale]
    have hmode : parseLoopMode "infinite" = .Infinite := rfl
    rw [hmode]
    simp [applyLoopMode, framesTen]

/-- Any successful stitch extends the composite height by exactly
`min(|delta|, new_frame.height)`. -/
theorem stitch_ok_height (base nf : Img) (d : Int) (r : Img)
    (h : stitch_scroll_image base nf d = .ok r) :
    r.height = base.height + min d.natAbs nf.height := by
  unfold stitch_scroll_image at h
  by_cases hw : base.width = nf.width
  · rw [if_neg (by simp [hw])] at h
    by_cases hd : 0 < d
    · rw [if_pos hd] at h
      by_cases hcase : nf.height ≤ d.natAbs
      · rw [if_pos hcase] at h
        rw [Except.ok.injEq] at h
        subst h
        dsimp only
        omega
      · rw [if_neg hcase] at h
        rw [Except.ok.injEq] at h
        subst h
        rfl
    · rw [if_neg hd] at h
      by_cases hcase : nf.height ≤ d.natAbs
      · rw [if_pos hcase] at h
        rw [Except.ok.injEq] at h
        subst h
        dsimp only
        omega
      · rw [if_neg hcase] at h
        rw [Except.ok.injEq] at h
        subst h
        rfl
  · rw [if_pos hw] at h
    exact absurd h (by simp)

/-- C10: every scroll-capture operation (`start_scroll_capture`, an
accepted `capture_scroll_frame_auto` step, `finish_scroll_capture`,
`cancel_scroll_capture`; rejected steps and errors leave the state
unchanged) preserves the ScrollSession invariant: the frame history and
the offset history have equal length, a non-empty offset history starts
with 0, a non-capturing session has no composite and no history, and the
composite's height equals the initial frame's height plus the sum of
`min(|delta|, frame_height)` over all accepted stitch steps (the index of
`ScrollReach`). -/
theorem scroll_invariant (s : ScrollState) (h0 : Nat) (ex : List Nat)
    (hreach : ScrollReach s h0 ex) :
    s.scroll_frames.length = s.scroll_offsets.length
    ∧ (s.scroll_offsets ≠ [] → s.scroll_offsets.head? = some 0)
    ∧ (s.scroll_capturing = false →
        s.scroll_stitched = none ∧ s.scroll_frames = [])
    ∧ (∀ c, s.scroll_stitched = some c →
        c.height = h0 + ex.sum
        ∧ ∃ f0, s.scroll_frames.head? = some f0 ∧ f0.height = h0) := by
  induction hreach with
  | init =>
    refine ⟨rfl, by simp [initScrollState], by simp [initScrollState], ?_⟩
    intro c hc
    simp [initScrollState] at hc
  | start s' h0' ex' f hr ih =>
    refine ⟨rfl, fun _ => rfl, ?_, ?_⟩
    · intro hcap
      simp [startScroll] at hcap
    · intro c hc
      simp only [startScroll] at hc
      rw [Option.some.injEq] at hc
      subst hc
      exact ⟨by simp, f, rfl, rfl⟩
  | step s s' h0' ex' f last hr hlast hd hstep ih =>
    by_cases hcap : s.scroll_capturing = false
    · unfold captureScrollFrameAuto at hstep
      rw [if_pos hcap] at hstep
      exact absurd hstep (by simp)
    · unfold captureScrollFrameAuto at hstep
      rw [if_neg hcap, hlast] at hstep
      dsimp only at hstep
      rw [if_neg (by omega)] at hstep
      cases hst : s.scroll_stitched with
      | none =>
        rw [hst] at hstep
        exact absurd hstep (by simp)
      | some base =>
        rw [hst] at hstep
        dsimp only at hstep
        cases hsti : stitch_scroll_image base f (detect_scroll_delta last f) with
        | error e =>
          rw [hsti] at hstep
          exact absurd hstep (by simp)
        | ok st =>
          rw [hsti] at hstep
          dsimp only at hstep
          rw [Except.ok.injEq] at hstep
          subst hstep
          have hne : s.scroll_frames ≠ [] := by
            intro hemp
            rw [hemp] at hlast
            simp at hlast
          have hone : s.scroll_offsets ≠ [] := by
            intro hemp
            have := ih.1
            rw [hemp] at this
            simp at this
            exact hne this
          obtain ⟨hbase, f0, hf0, hf0h⟩ := ih.2.2.2 base hst
          refine ⟨?_, ?_, ?_, ?_⟩
          · simp [ih.1]
          · intro _
            dsimp only
            rw [List.head?_append]
            rw [ih.2.1 hone]
            rfl
          · intro hcap2
            exact absurd hcap2 hcap
          · intro c hc
            dsimp only at hc
            rw [Option.some.injEq] at hc
            subst hc
            constructor
            · have hh := stitch_ok_height base f (detect_scroll_delta last f) st hsti
              rw [hh, hbase]
              simp [List.sum_append]
              omega
            · refine ⟨f0, ?_, hf0h⟩
              dsimp only
              rw [List.head?_append]
              rw [← hf0]
              cases hfr : s.scroll_frames with
              | nil => exact absurd hfr hne
              | cons a l => rfl
  | finish s h0' ex' hr ih =>
    unfold finishScrollCapture
    by_cases hcap : s.scroll_capturing = false
    · rw [if_pos hcap]
      obtain ⟨hnone, hnil⟩ := ih.2.2.1 hcap
      refine ⟨ih.1, ih.2.1, fun _ => ⟨hnone, hnil⟩, ?_⟩
      intro c hc
      rw [hnone] at hc
      cases hc
    · rw [if_neg hcap]
      cases hst : s.scroll_stitched with
      | none =>
        refine ⟨ih.1, ih.2.1, ?_, ?_⟩
        · intro hcap2
          exact absurd hcap2 hcap
        · intro c hc
          rw [hst] at hc
          cases hc
      | some c0 =>
        exact ⟨rfl, by simp, by simp, by simp⟩
  | cancel s h0' ex' hr ih =>
    exact ⟨rfl, by simp [cancelScrollCapture], by simp [cancelScrollCapture],
      by simp [cancelScrollCapture]⟩

/-- Witness for C10: the invariant evaluated at the session reached by
`start_scroll_capture` with a concrete 2×3 initial frame. -/
theorem scroll_invariant_witness :
    (startScroll (constImg 2 3)).scroll_frames.length
        = (startScroll (constImg 2 3)).scroll_offsets.length
    ∧ ((startScroll (constImg 2 3)).scroll_offsets ≠ [] →
        (startScroll (constImg 2 3)).scroll_offsets.head? = some 0)
    ∧ ((startScroll (constImg 2 3)).scroll_capturing = false →
        (startScroll (constImg 2 3)).scroll_stitched = none
        ∧ (startScroll (constImg 2 3)).scroll_frames = [])
    ∧ (∀ c, (startScroll (constImg 2 3)).scroll_stitched = some c →
        c.height = (constImg 2 3).height + ([] : List Nat).sum
        ∧ ∃ f0, (startScroll (constImg 2 3)).scroll_frames.head? = some f0
            ∧ f0.height = (constImg 2 3).height) :=
  scroll_invariant (startScroll (constImg 2 3)) (constImg 2 3).height []
    (ScrollReach.start initScrollState 0 [] (constImg 2 3) ScrollReach.init)
